import Mathlib

/-!
Verification development for the claude-worker-proxy protocol-translation
gateway (OpenAI chat-completions dialect adapter, `src/oainew.ts`, plus the
shared wire types of `src/types.ts`).

The TypeScript adapter is shallowly embedded: pure functions become Lean
functions, the per-response mutable state of the stream decoder (tool-call
accumulator, block-index cursors) becomes explicit state threading, and
fallible operations (JavaScript exceptions such as a failing `JSON.parse`)
return `Option`.  JavaScript string truthiness (`undefined`, `null` and `""`
are falsy) is modelled explicitly.  JSON numbers are modelled on the integer
subset (the program's own wire examples use only integers); a numeric literal
with a fractional or exponent part makes the parser return `none`.
-/

/-- JSON values, as produced by the JavaScript `JSON.parse` builtin
(restricted to integer numerals). An object is an ordered field list. -/
inductive Json where
  | null : Json
  | bool (b : Bool) : Json
  | num (n : Int) : Json
  | str (s : String) : Json
  | arr (elems : List Json) : Json
  | obj (fields : List (String × Json)) : Json

/-- The opening-brace character, written via its code point. -/
def lbrace : Char := Char.ofNat 123

/-- The closing-brace character, written via its code point. -/
def rbrace : Char := Char.ofNat 125

/-- JavaScript truthiness of a possibly-absent string: `undefined`, `null`
and the empty string are falsy. -/
def truthy (o : Option String) : Bool :=
  !(o.getD "").isEmpty

/-- Whitespace accepted between JSON tokens. -/
def isJsonWs (c : Char) : Bool :=
  c == ' ' || c == '\n' || c == '\t' || c == '\r'

/-- Drop leading JSON whitespace. -/
def skipWs : List Char → List Char
  | [] => []
  | c :: cs => if isJsonWs c then skipWs cs else c :: cs

/-- Consume an exact character sequence. -/
def expectChars : List Char → List Char → Option (List Char)
  | [], cs => some cs
  | _ :: _, [] => none
  | e :: es, c :: cs => if c == e then expectChars es cs else none

/-- Consume a run of decimal digits, accumulating their value. -/
def takeDigits (acc : Nat) : List Char → Nat × List Char
  | [] => (acc, [])
  | c :: cs =>
    if c.isDigit then takeDigits (acc * 10 + (c.toNat - 48)) cs
    else (acc, c :: cs)

/-- Whether the next run of characters starts with a decimal digit. -/
def headIsDigit : List Char → Bool
  | [] => false
  | c :: _ => c.isDigit

/-- A numeral followed by a fraction or exponent marker is outside the
modelled integer subset of JSON numbers. -/
def headIsFrac : List Char → Bool
  | [] => false
  | c :: _ => c == '.' || c == 'e' || c == 'E'

/-- Parse the body of a JSON string literal (after the opening quote),
handling the simple escapes; a `\u` escape is not modelled and fails. -/
def parseStrBody : List Char → Option (String × List Char)
  | [] => none
  | c :: cs =>
    if c == '"' then some ("", cs)
    else if c == '\\' then
      match cs with
      | [] => none
      | e :: cs2 =>
        let esc : Option Char :=
          if e == '"' then some '"'
          else if e == '\\' then some '\\'
          else if e == '/' then some '/'
          else if e == 'n' then some '\n'
          else if e == 't' then some '\t'
          else if e == 'r' then some '\r'
          else if e == 'b' then some (Char.ofNat 8)
          else if e == 'f' then some (Char.ofNat 12)
          else none
        match esc with
        | none => none
        | some ch =>
          match parseStrBody cs2 with
          | none => none
          | some (s, rest) => some (String.mk (ch :: s.data), rest)
    else
      match parseStrBody cs with
      | none => none
      | some (s, rest) => some (String.mk (c :: s.data), rest)

mutual

/-- Fuel-driven recursive-descent parser for one JSON value. -/
def parseVal : Nat → List Char → Option (Json × List Char)
  | 0, _ => none
  | fuel + 1, cs =>
    match skipWs cs with
    | [] => none
    | c :: rest =>
      if c == 'n' then
        match expectChars ['u', 'l', 'l'] rest with
        | some rest2 => some (Json.null, rest2)
        | none => none
      else if c == 't' then
        match expectChars ['r', 'u', 'e'] rest with
        | some rest2 => some (Json.bool true, rest2)
        | none => none
      else if c == 'f' then
        match expectChars ['a', 'l', 's', 'e'] rest with
        | some rest2 => some (Json.bool false, rest2)
        | none => none
      else if c == '"' then
        match parseStrBody rest with
        | some (s, rest2) => some (Json.str s, rest2)
        | none => none
      else if c == '[' then parseArr fuel rest
      else if c == lbrace then parseObj fuel rest
      else if c == '-' then
        if headIsDigit rest then
          let (n, rest2) := takeDigits 0 rest
          if headIsFrac rest2 then none else some (Json.num (-(n : Int)), rest2)
        else none
      else if c.isDigit then
        let (n, rest2) := takeDigits (c.toNat - 48) rest
        if headIsFrac rest2 then none else some (Json.num (n : Int), rest2)
      else none

/-- Parse the items of an array, just after the opening bracket. -/
def parseArr : Nat → List Char → Option (Json × List Char)
  | 0, _ => none
  | fuel + 1, cs =>
    match skipWs cs with
    | ']' :: rest => some (Json.arr [], rest)
    | cs2 =>
      match parseVal fuel cs2 with
      | none => none
      | some (v, rest) => parseArrRest fuel [v] rest

/-- Parse the remaining items of a non-empty array. -/
def parseArrRest : Nat → List Json → List Char → Option (Json × List Char)
  | 0, _, _ => none
  | fuel + 1, elemsRev, cs =>
    match skipWs cs with
    | ']' :: rest => some (Json.arr elemsRev.reverse, rest)
    | ',' :: rest =>
      match parseVal fuel rest with
      | none => none
      | some (v, rest2) => parseArrRest fuel (v :: elemsRev) rest2
    | _ => none

/-- Parse the fields of an object, just after the opening brace. -/
def parseObj : Nat → List Char → Option (Json × List Char)
  | 0, _ => none
  | fuel + 1, cs =>
    match skipWs cs with
    | c :: rest =>
      if c == rbrace then some (Json.obj [], rest)
      else if c == '"' then
        match parseField fuel rest with
        | none => none
        | some (f, rest2) => parseObjRest fuel [f] rest2
      else none
    | [] => none

/-- Parse the remaining fields of a non-empty object. -/
def parseObjRest : Nat → List (String × Json) → List Char →
    Option (Json × List Char)
  | 0, _, _ => none
  | fuel + 1, fieldsRev, cs =>
    match skipWs cs with
    | c :: rest =>
      if c == rbrace then some (Json.obj fieldsRev.reverse, rest)
      else if c == ',' then
        match skipWs rest with
        | '"' :: rest2 =>
          match parseField fuel rest2 with
          | none => none
          | some (f, rest3) => parseObjRest fuel (f :: fieldsRev) rest3
        | _ => none
      else none
    | [] => none

/-- Parse one object field, just after the opening quote of its key. -/
def parseField : Nat → List Char → Option ((String × Json) × List Char)
  | 0, _ => none
  | fuel + 1, cs =>
    match parseStrBody cs with
    | none => none
    | some (key, rest) =>
      match skipWs rest with
      | ':' :: rest2 =>
        match parseVal fuel rest2 with
        | none => none
        | some (v, rest3) => some ((key, v), rest3)
      | _ => none

end

/-- Model of the JavaScript `JSON.parse` builtin (`none` models the thrown
`SyntaxError`). -/
def parseJson (s : String) : Option Json :=
  match parseVal (2 * s.length + 8) s.data with
  | some (v, rest) => if (skipWs rest).isEmpty then some v else none
  | none => none

/-- Escape one character for a JSON string literal. -/
def escChar (c : Char) : String :=
  if c == '"' then "\\\""
  else if c == '\\' then "\\\\"
  else if c == '\n' then "\\n"
  else if c == '\t' then "\\t"
  else if c == '\r' then "\\r"
  else String.mk [c]

/-- Render a JSON string literal. -/
def renderStr (s : String) : String :=
  "\"" ++ String.join (s.data.map escChar) ++ "\""

mutual

/-- Model of the JavaScript `JSON.stringify` builtin on `Json` values. -/
def renderJson : Json → String
  | Json.null => "null"
  | Json.bool true => "true"
  | Json.bool false => "false"
  | Json.num n => toString n
  | Json.str s => renderStr s
  | Json.arr xs => "[" ++ renderList xs ++ "]"
  | Json.obj fs =>
      String.mk [lbrace] ++ renderFields fs ++ String.mk [rbrace]

/-- Render array elements, comma-separated. -/
def renderList : List Json → String
  | [] => ""
  | [x] => renderJson x
  | x :: y :: xs => renderJson x ++ "," ++ renderList (y :: xs)

/-- Render object fields, comma-separated. -/
def renderFields : List (String × Json) → String
  | [] => ""
  | [(k, v)] => renderStr k ++ ":" ++ renderJson v
  | (k, v) :: f :: fs =>
      renderStr k ++ ":" ++ renderJson v ++ "," ++ renderFields (f :: fs)

end

/-! ## Wire model: client (Claude) request side, from `src/types.ts` -/

/-- `types.JsonSchema` (recursive; every field optional in the source;
`properties` is a key-to-schema record, modelled as an ordered list). -/
inductive JsonSchema where
  | mk (tp : Option String) (properties : List (String × JsonSchema))
      (required : Option (List String)) (description : Option String)
      (items : Option JsonSchema) : JsonSchema

/-- `types.ClaudeTool`. -/
structure ClaudeTool where
  name : String
  description : String
  input_schema : JsonSchema

/-- Payload of a `tool_result` block: `string | <structured>` in the source. -/
inductive ToolResultContent where
  | str (s : String) : ToolResultContent
  | json (v : Json) : ToolResultContent

/-- One element of a `ClaudeContent` block array (`types.ClaudeContent`). -/
inductive ClaudeContentBlock where
  | text (text : String) : ClaudeContentBlock
  | toolUse (id : String) (name : String) (input : Json) : ClaudeContentBlock
  | toolResult (tool_use_id : String) (content : ToolResultContent)
      (is_error : Option Bool) : ClaudeContentBlock

/-- `types.ClaudeContent`: a plain string or a block array. -/
inductive ClaudeContent where
  | str (s : String) : ClaudeContent
  | blocks (l : List ClaudeContentBlock) : ClaudeContent

/-- `types.ClaudeMessage`.  The TypeScript type restricts `role` to
`'user' | 'assistant'`, but the value is an unvalidated cast of client JSON,
so the runtime role is an arbitrary string and is modelled as such. -/
structure ClaudeMessage where
  role : String
  content : ClaudeContent

/-- `types.ClaudeRequest` (`system` is typed `string?` in the source). -/
structure ClaudeRequest where
  model : String
  system : Option String := none
  messages : List ClaudeMessage
  max_tokens : Option Nat := none
  temperature : Option Rat := none
  stream : Option Bool := none
  tools : Option (List ClaudeTool) := none

/-! ## Wire model: backend (OpenAI) request side -/

/-- The four backend message roles of `types.OpenAIMessage`. -/
inductive ORole where
  | system : ORole
  | user : ORole
  | assistant : ORole
  | tool : ORole
deriving DecidableEq, Repr

/-- `types.OpenAIToolCall` (the nested `function` record is flattened into
the `fname`/`farguments` fields; `type` is always `'function'`). -/
structure OpenAIToolCall where
  id : String
  fname : String
  farguments : String
deriving DecidableEq, Repr

/-- `types.OpenAIMessage`.  The source distinguishes `content: null` from an
absent `content`; both are falsy and are modelled together as `none`. -/
structure OpenAIMessage where
  role : ORole
  content : Option String := none
  tool_calls : Option (List OpenAIToolCall) := none
  tool_call_id : Option String := none
deriving DecidableEq, Repr

/-- The `function` record of `types.OpenAITool`. -/
structure OpenAIFunctionDef where
  name : String
  description : String
  parameters : JsonSchema
  strict : Bool

/-- `types.OpenAITool` (`type` is always `'function'`). -/
structure OpenAITool where
  tp : String
  function : OpenAIFunctionDef

/-- `types.OpenAIRequest`. -/
structure OpenAIRequest where
  model : String
  messages : List OpenAIMessage
  tools : Option (List OpenAITool) := none
  tool_choice : Option String := none
  temperature : Option Rat := none
  max_completion_tokens : Option Nat := none
  stream : Option Bool := none

/-- `types.OpenAIResponsesRequest` (Responses-API dialect). -/
structure OpenAIResponsesRequest where
  model : String
  input : List OpenAIMessage
  tools : Option (List OpenAITool) := none
  tool_choice : Option String := none
  temperature : Option Rat := none
  max_completion_tokens : Option Nat := none
  stream : Option Bool := none
  reasoning_effort : Option String := none
  stream_options_include_usage : Option Bool := none

/-! ## Request mapper, from `src/oainew.ts` -/

/-- Modelled from the spec: JSON-Schema sanitization for tool parameter
declarations (`utils.cleanJsonSchema`) is an external collaborator declared
out of scope (spec section 1); its file is not part of the sources, so it is
modelled as the identity on schemas. -/
def cleanJsonSchema (s : JsonSchema) : JsonSchema := s

/-- Modelled from the spec: identifier generation (`utils.generateId`) is an
external collaborator declared out of scope (spec section 1); it is modelled
as a fixed fresh identifier. -/
def generateId : String := "msg_proxy"

/-- The role mapping applied to every client message
(`message.role === 'assistant' ? 'assistant' : 'user'`, lines 77 and 115 of
`src/oainew.ts`): an exact, case-sensitive comparison with `'assistant'`. -/
def mapRole (r : String) : ORole :=
  if r = "assistant" then ORole.assistant else ORole.user

/-- The `tool_use` arm of the block switch (lines 92-102): a backend
tool-call record with the input serialized by `JSON.stringify`. -/
def blockToolCall (id name : String) (input : Json) : OpenAIToolCall :=
  { id := id, fname := name, farguments := renderJson input }

/-- The `tool_result` arm of the block switch (lines 103-109): the payload
is kept when it is a string and serialized otherwise. -/
def toolResultPayload : ToolResultContent → String
  | ToolResultContent.str s => s
  | ToolResultContent.json v => renderJson v

/-- `textContents` of one message: the texts of its `text` blocks. -/
def textContentsOf (bl : List ClaudeContentBlock) : List String :=
  bl.filterMap fun b =>
    match b with
    | ClaudeContentBlock.text t => some t
    | _ => none

/-- `toolCalls` of one message: its `tool_use` blocks as backend records. -/
def toolCallsOf (bl : List ClaudeContentBlock) : List OpenAIToolCall :=
  bl.filterMap fun b =>
    match b with
    | ClaudeContentBlock.toolUse id name input => some (blockToolCall id name input)
    | _ => none

/-- `toolResults` of one message: `(tool_call_id, content)` pairs. -/
def toolResultsOf (bl : List ClaudeContentBlock) : List (String × String) :=
  bl.filterMap fun b =>
    match b with
    | ClaudeContentBlock.toolResult tid c _ => some (tid, toolResultPayload c)
    | _ => none

/-- The consolidated own-content message of one turn (lines 113-124),
when the turn has text or tool-call content. -/
def ownMessagesOf (m : ClaudeMessage) (bl : List ClaudeContentBlock) :
    List OpenAIMessage :=
  let textContents := textContentsOf bl
  let toolCalls := toolCallsOf bl
  if textContents.length > 0 ∨ toolCalls.length > 0 then
    [{ role := mapRole m.role,
       content := if textContents.length > 0
         then some (String.intercalate "\n" textContents) else none,
       tool_calls := if toolCalls.length > 0 then some toolCalls else none }]
  else []

/-- The separate `role: 'tool'` messages of one turn (lines 126-132). -/
def toolMessagesOf (bl : List ClaudeContentBlock) : List OpenAIMessage :=
  (toolResultsOf bl).map fun tr =>
    { role := ORole.tool, content := some tr.2, tool_call_id := some tr.1 }

/-- The loop body of `convertMessages` for one client message: a string
content is forwarded directly (lines 75-81); a block array is split into the
consolidated own-content message followed by the tool-result messages
(lines 83-132).  The source's `toolCallMap` is written to but never read, so
it has no observable effect and is omitted. -/
def convertOneMessage (m : ClaudeMessage) : List OpenAIMessage :=
  match m.content with
  | ClaudeContent.str s => [{ role := mapRole m.role, content := some s }]
  | ClaudeContent.blocks bl => ownMessagesOf m bl ++ toolMessagesOf bl

/-- `convertMessages` (lines 70-136): per-message outputs concatenated in
message order. -/
def convertMessages : List ClaudeMessage → List OpenAIMessage
  | [] => []
  | m :: rest => convertOneMessage m ++ convertMessages rest

/-- The tool-declaration mapping of lines 46-54 (and 321-329): one backend
function tool per client tool, schema sanitized, `strict: true`. -/
def mkOpenAITool (t : ClaudeTool) : OpenAITool :=
  { tp := "function",
    function :=
      { name := t.name, description := t.description,
        parameters := cleanJsonSchema t.input_schema, strict := true } }

/-- `convertToOpenAIRequestBody` (lines 38-68 of `src/oainew.ts`). -/
def convertToOpenAIRequestBody (req : ClaudeRequest) : OpenAIRequest :=
  let base : OpenAIRequest :=
    { model := req.model, messages := convertMessages req.messages,
      stream := req.stream }
  let withTools :=
    match req.tools with
    | some ts =>
      if ts.length > 0 then
        { base with tools := some (ts.map mkOpenAITool), tool_choice := some "auto" }
      else base
    | none => base
  let withTemp :=
    match req.temperature with
    | some t => { withTools with temperature := some t }
    | none => withTools
  match req.max_tokens with
  | some n => { withTemp with max_completion_tokens := some n }
  | none => withTemp

/-- Substring containment, modelling JavaScript `String.prototype.includes`. -/
def charsBeginWith : List Char → List Char → Bool
  | [], _ => true
  | _ :: _, [] => false
  | a :: as, b :: bs => a == b && charsBeginWith as bs

/-- Substring search over character lists. -/
def hasSubChars (sub : List Char) : List Char → Bool
  | [] => sub.isEmpty
  | c :: rest => charsBeginWith sub (c :: rest) || hasSubChars sub rest

/-- `s.includes(sub)` for strings. -/
def strIncludes (s sub : String) : Bool := hasSubChars sub.data s.data

/-- `convertToResponsesRequestBody` (lines 301-349, second adapter): same
message and tool mapping, plus `reasoning_effort` for reasoning models and
`stream_options` when streaming.  Both arms of the source's temperature
conditional assign the same value. -/
def convertToResponsesRequestBody (req : ClaudeRequest) : OpenAIResponsesRequest :=
  let base : OpenAIResponsesRequest :=
    { model := req.model, input := convertMessages req.messages,
      stream := req.stream }
  let withReasoning :=
    if strIncludes req.model "o1" || strIncludes req.model "o3" ||
        strIncludes req.model "gpt-5" then
      { base with reasoning_effort := some "medium" }
    else base
  let withStreamOpts :=
    if req.stream.getD false then
      { withReasoning with stream_options_include_usage := some true }
    else withReasoning
  let withTools :=
    match req.tools with
    | some ts =>
      if ts.length > 0 then
        { withStreamOpts with
            tools := some (ts.map mkOpenAITool),
            tool_choice := some "auto" }
      else withStreamOpts
    | none => withStreamOpts
  let withTemp :=
    match req.temperature with
    | some t => { withTools with temperature := some t }
    | none => withTools
  match req.max_tokens with
  | some n => { withTemp with max_completion_tokens := some n }
  | none => withTemp

/-! ## Wire model: backend response side and client response -/

/-- Claude terminal reasons (`types.ClaudeResponse.stop_reason`). -/
inductive StopReason where
  | end_turn : StopReason
  | tool_use : StopReason
  | max_tokens : StopReason
deriving DecidableEq, Repr

/-- One element of `types.ClaudeResponse.content`. -/
inductive ClaudeBlock where
  | text (text : String) : ClaudeBlock
  | toolUse (id : String) (name : String) (input : Json) : ClaudeBlock

/-- `types.ClaudeResponse` (the constant `type: 'message'` and
`role: 'assistant'` fields are attached by the JSON encoder). `usage` holds
`(input_tokens, output_tokens)`. -/
structure ClaudeResponse where
  id : String
  content : List ClaudeBlock
  stop_reason : Option StopReason := none
  usage : Option (Nat × Nat) := none

/-- `types.OpenAIChoice` (the unread `index` field is omitted). -/
structure OpenAIChoice where
  message : OpenAIMessage
  finish_reason : Option String := none
deriving DecidableEq, Repr

/-- `types.OpenAIResponse` (only the fields the adapter reads; `usage` holds
`(prompt_tokens, completion_tokens)`).  `choices` is `Option` because the
source guards `openaiData.choices && openaiData.choices.length > 0`. -/
structure OpenAIResponse where
  choices : Option (List OpenAIChoice) := none
  usage : Option (Nat × Nat) := none
deriving DecidableEq, Repr

/-- `JSON.parse` applied to each accumulated `arguments` string of a
response `tool_calls` list (lines 159-167); a parse failure is a thrown
exception that aborts the whole conversion, modelled by `none`. -/
def parseToolCalls : List OpenAIToolCall → Option (List ClaudeBlock)
  | [] => some []
  | c :: cs =>
    match parseJson c.farguments with
    | none => none
    | some v =>
      match parseToolCalls cs with
      | none => none
      | some rest => some (ClaudeBlock.toolUse c.id c.fname v :: rest)

/-- `convertNormalResponse` (lines 138-189 of `src/oainew.ts`), on the
already-parsed backend document.  JavaScript truthiness decides the text
block (`if (message.content)`) and the tool branch (`if (message.tool_calls)`
is entered even for an empty array). -/
def convertNormalResponse (resp : OpenAIResponse) : Option ClaudeResponse :=
  let base : ClaudeResponse := { id := generateId, content := [] }
  let withChoice : Option ClaudeResponse :=
    match resp.choices with
    | some (choice :: _) =>
      let textBlocks : List ClaudeBlock :=
        if truthy choice.message.content then
          [ClaudeBlock.text (choice.message.content.getD "")] else []
      match choice.message.tool_calls with
      | some calls =>
        match parseToolCalls calls with
        | some toolBlocks =>
          some { base with
                   content := textBlocks ++ toolBlocks,
                   stop_reason := some StopReason.tool_use }
        | none => none
      | none =>
        some { base with
                 content := textBlocks,
                 stop_reason := some (if choice.finish_reason == some "length"
                   then StopReason.max_tokens else StopReason.end_turn) }
    | _ => some base
  withChoice.map fun c =>
    match resp.usage with
    | some u => { c with usage := some u }
    | none => c

/-! ## Stream decoding: tool-call accumulator and delta decoder -/

/-- The two client block kinds, each with its own index counter. -/
inductive BlockType where
  | text : BlockType
  | toolUse : BlockType
deriving DecidableEq, Repr

/-- Client-visible SSE events (spec section 6).  `blockStop` carries the
kind of the block it closes so the per-counter pairing can be stated. -/
inductive StreamEvent where
  | messageStart : StreamEvent
  | blockStartText (index : Nat) : StreamEvent
  | blockStartTool (index : Nat) (id : String) (name : String)
      (input : Json) : StreamEvent
  | textDelta (index : Nat) (text : String) : StreamEvent
  | inputJsonDelta (index : Nat) (payload : String) : StreamEvent
  | blockStop (t : BlockType) (index : Nat) : StreamEvent
  | messageStop : StreamEvent

/-- Modelled from the spec: `utils.processTextPart` (its file is not among
the sources).  Spec sections 3, 4.4 and 8: a text fragment opens the block
at the current text index, delivers the fragment as a `text_delta`, and the
block is closed exactly once before the cursor advances. -/
def processTextPart (s : String) (i : Nat) : List StreamEvent :=
  [StreamEvent.blockStartText i, StreamEvent.textDelta i s,
   StreamEvent.blockStop BlockType.text i]

/-- Modelled from the spec: `utils.processToolUsePart` (its file is not
among the sources).  Spec section 4.4: on reassembly, emit
`content_block_start` (type tool-use, carrying id and name), one
`content_block_delta` with the full structured input as an input-delta, and
`content_block_stop`.  The call site passes only the name and the parsed
arguments, so the id is freshly generated. -/
def processToolUsePart (name : String) (args : Json) (j : Nat) :
    List StreamEvent :=
  [StreamEvent.blockStartTool j generateId name args,
   StreamEvent.inputJsonDelta j (renderJson args),
   StreamEvent.blockStop BlockType.toolUse j]

/-- One tool-call accumulator entry (line 193): partially received id and
name, and the growing arguments buffer. -/
structure AccEntry where
  id : Option String := none
  name : Option String := none
  args : Option String := none
deriving DecidableEq, Repr

/-- The accumulator map, keyed by the backend slot index. -/
abbrev AccMap := List (Nat × AccEntry)

/-- `toolCallAccumulator.get` (by slot index). -/
def accLookup (m : AccMap) (k : Nat) : Option AccEntry :=
  (m.find? fun p => p.1 == k).map (·.2)

/-- `toolCallAccumulator.set` (replace or add the slot's entry). -/
def accInsert (m : AccMap) (k : Nat) (v : AccEntry) : AccMap :=
  (k, v) :: m.filter fun p => p.1 != k

/-- `toolCallAccumulator.delete`. -/
def accDelete (m : AccMap) (k : Nat) : AccMap :=
  m.filter fun p => p.1 != k

/-- One tool-call fragment of a stream delta (the nested `function` record
is flattened into `fname`/`fargs`). -/
structure ToolCallFragment where
  index : Option Nat := none
  id : Option String := none
  fname : Option String := none
  fargs : Option String := none
deriving DecidableEq, Repr

/-- The first stream choice's delta together with its (unread)
`finish_reason` (`types.OpenAIStreamResponse`, `delta` flattened). -/
structure StreamChoice where
  content : Option String := none
  tool_calls : Option (List ToolCallFragment) := none
  finish_reason : Option String := none
deriving DecidableEq, Repr

/-- The accumulation step of lines 222-231: id and name are overwritten when
the fragment carries a truthy value, the arguments buffer is appended to. -/
def mergeFragment (e : AccEntry) (f : ToolCallFragment) : AccEntry :=
  let e1 := if truthy f.id then { e with id := f.id } else e
  let e2 := if truthy f.fname then { e1 with name := f.fname } else e1
  if truthy f.fargs then
    { e2 with args := some ((e2.args.getD "") ++ f.fargs.getD "") }
  else e2

/-- The `for (const toolCall of delta.tool_calls)` loop of lines 213-253:
per fragment, merge into the slot's entry; when the entry has a truthy name
and arguments buffer and the buffer parses, emit the tool-use block at the
current tool-use index, advance it, and delete the entry; otherwise store
the merged entry back (a parse failure is silent). -/
def processToolFragments (acc : AccMap) (tj : Nat) :
    List ToolCallFragment → AccMap × List StreamEvent × Nat
  | [] => (acc, [], tj)
  | f :: fs =>
    let slot := f.index.getD 0
    let merged := mergeFragment ((accLookup acc slot).getD {}) f
    if truthy merged.name && truthy merged.args then
      match parseJson (merged.args.getD "") with
      | some v =>
        let r := processToolFragments (accDelete acc slot) (tj + 1) fs
        (r.1, processToolUsePart (merged.name.getD "") v tj ++ r.2.1, r.2.2)
      | none => processToolFragments (accInsert acc slot merged) tj fs
    else processToolFragments (accInsert acc slot merged) tj fs

/-- The body of the decode callback of `convertStreamResponse`
(lines 201-260) after the choice has been extracted: the text fragment is
emitted first and advances the text cursor, then the tool-call fragments are
folded through the accumulator. -/
def deltaDecodeChoice (acc : AccMap) (c : StreamChoice) (ti tj : Nat) :
    AccMap × List StreamEvent × Nat × Nat :=
  let textEvs := if truthy c.content
    then processTextPart (c.content.getD "") ti else []
  let ti' := if truthy c.content then ti + 1 else ti
  let r := processToolFragments acc tj (c.tool_calls.getD [])
  (r.1, textEvs ++ r.2.1, ti', r.2.2)

/-! ## Decoding one upstream JSON record into the delta shape -/

/-- Field lookup in a JSON object. -/
def jLookup (fs : List (String × Json)) (k : String) : Option Json :=
  (fs.find? fun p => p.1 == k).map (·.2)

/-- Read a JSON value as a string. -/
def asStr : Json → Option String
  | Json.str s => some s
  | _ => none

/-- Read a JSON value as a natural number. -/
def asNat : Json → Option Nat
  | Json.num n => if n < 0 then none else some n.toNat
  | _ => none

/-- An optional string field; JSON `null` counts as absent (it is falsy in
the source's truthiness checks); a present non-string value makes the record
malformed. -/
def optStrField (fs : List (String × Json)) (k : String) :
    Option (Option String) :=
  match jLookup fs k with
  | none => some none
  | some Json.null => some none
  | some v => (asStr v).map some

/-- An optional natural-number field; JSON `null` counts as absent
(`toolCall.index ?? 0` treats both alike). -/
def optNatField (fs : List (String × Json)) (k : String) :
    Option (Option Nat) :=
  match jLookup fs k with
  | none => some none
  | some Json.null => some none
  | some v => (asNat v).map some

/-- Decode one element of `delta.tool_calls`. -/
def decodeFragment (v : Json) : Option ToolCallFragment :=
  match v with
  | Json.obj fs =>
    match optNatField fs "index", optStrField fs "id" with
    | some idx, some idv =>
      match jLookup fs "function" with
      | none => some { index := idx, id := idv }
      | some Json.null => some { index := idx, id := idv }
      | some (Json.obj gs) =>
        match optStrField gs "name", optStrField gs "arguments" with
        | some nm, some ag =>
          some { index := idx, id := idv, fname := nm, fargs := ag }
        | _, _ => none
      | some _ => none
    | _, _ => none
  | _ => none

/-- Decode the first choice of one upstream record. -/
def decodeStreamChoice (v : Json) : Option StreamChoice :=
  match v with
  | Json.obj fs =>
    match jLookup fs "delta" with
    | some (Json.obj ds) =>
      match optStrField ds "content" with
      | none => none
      | some cnt =>
        match jLookup ds "tool_calls" with
        | none =>
          some { content := cnt,
                 finish_reason := jLookup fs "finish_reason" >>= asStr }
        | some Json.null =>
          some { content := cnt,
                 finish_reason := jLookup fs "finish_reason" >>= asStr }
        | some (Json.arr elems) =>
          match elems.mapM decodeFragment with
          | some frs =>
            some { content := cnt, tool_calls := some frs,
                   finish_reason := jLookup fs "finish_reason" >>= asStr }
          | none => none
        | some _ => none
    | _ => none
  | _ => none

/-- `JSON.parse(jsonStr) as types.OpenAIStreamResponse` followed by the
`choices` guard of lines 196-199.  The cast performs no validation: a record
whose shape deviates raises a TypeError inside the callback, which the
driver treats the same way as an absent or empty `choices` (record skipped,
state untouched), so both outcomes are conflated into `none`. -/
def decodeStreamRecord (s : String) : Option StreamChoice :=
  match parseJson s with
  | some (Json.obj fs) =>
    match jLookup fs "choices" with
    | some (Json.arr (c :: _)) => decodeStreamChoice c
    | _ => none
  | _ => none

/-- The full decode callback of `convertStreamResponse` on one raw record:
parse, guard, then decode the delta (`none` models both the `return null`
path and a thrown per-record error). -/
def decodeStep (acc : AccMap) (jsonStr : String) (ti tj : Nat) :
    AccMap × Option (List StreamEvent × Nat × Nat) :=
  match decodeStreamRecord jsonStr with
  | none => (acc, none)
  | some c =>
    let r := deltaDecodeChoice acc c ti tj
    (r.1, some (r.2.1, r.2.2.1, r.2.2.2))

/-! ## SSE envelope driver -/

/-- Modelled from the spec: the record-folding core of
`utils.processProviderStream` (its file is not among the sources).  Spec
section 4.3: the driver invokes the decode callback once per record with the
current cursors, forwards the produced events in arrival order, and treats a
failed record as a non-fatal skip.  Returns the forwarded events and the
final accumulator and cursors. -/
def runRecords (acc : AccMap) (ti tj : Nat) :
    List String → List StreamEvent × (AccMap × Nat × Nat)
  | [] => ([], (acc, ti, tj))
  | s :: rest =>
    match decodeStep acc s ti tj with
    | (acc', none) => runRecords acc' ti tj rest
    | (acc', some (evs, ti', tj')) =>
      let r := runRecords acc' ti' tj' rest
      (evs ++ r.1, r.2)

/-- The same driver fold over already-decoded deltas (used to speak about a
logical fragment sequence independently of JSON framing). -/
def runChoices (acc : AccMap) (ti tj : Nat) :
    List StreamChoice → List StreamEvent × (AccMap × Nat × Nat)
  | [] => ([], (acc, ti, tj))
  | c :: rest =>
    let d := deltaDecodeChoice acc c ti tj
    let r := runChoices d.1 d.2.2.1 d.2.2.2 rest
    (d.2.1 ++ r.1, r.2)

/-- The cursor pair returned after each record (unchanged for a skipped
record), in record order. -/
def cursorTrace (acc : AccMap) (ti tj : Nat) :
    List String → List (Nat × Nat)
  | [] => []
  | s :: rest =>
    match decodeStep acc s ti tj with
    | (acc', none) => (ti, tj) :: cursorTrace acc' ti tj rest
    | (acc', some (_, ti', tj')) => (ti', tj') :: cursorTrace acc' ti' tj' rest

/-- Modelled from the spec: `utils.processProviderStream` on the payloads of
one upstream stream.  Spec section 4.3: a `message_start` is emitted before
the first content and a `message_stop` after the upstream stream ends; the
cursors start at zero and the accumulator starts empty.  (The optional
terminal `message_delta` is driven by state of the missing driver that the
spec leaves unspecified, so it is not modelled.) -/
def processProviderStream (records : List String) : List StreamEvent :=
  StreamEvent.messageStart :: (runRecords [] 0 0 records).1 ++
    [StreamEvent.messageStop]

/-- The decoder run on a logical fragment sequence, from fresh state. -/
def runStreamChoices (cs : List StreamChoice) : List StreamEvent :=
  (runChoices [] 0 0 cs).1

/-! ## HTTP layer: `convertToClaudeResponse` -/

/-- The parts of a `Response` the adapter reads or builds. -/
structure HttpResponse where
  status : Nat
  contentType : String
  body : String
deriving DecidableEq, Repr

/-- `Response.ok`: status in the 2xx range. -/
def respOk (r : HttpResponse) : Bool :=
  200 ≤ r.status && r.status < 300

/-- Decode one element of a response `tool_calls` list.  `id` and `name` are
read without a check (an absent value flows through as `undefined`, modelled
as `""`); `arguments` must be a string, since `JSON.parse` throws on
anything else. -/
def decodeRespToolCall (v : Json) : Option OpenAIToolCall :=
  match v with
  | Json.obj fs =>
    match jLookup fs "function" with
    | some (Json.obj gs) =>
      match jLookup gs "arguments" >>= asStr with
      | some args =>
        some { id := (jLookup fs "id" >>= asStr).getD "",
               fname := (jLookup gs "name" >>= asStr).getD "",
               farguments := args }
      | none => none
    | _ => none
  | _ => none

/-- Decode the first choice of a non-stream backend document.  The source
reads only `choices[0]`; `message` must be an object (anything else raises
on the `message.content` access). -/
def decodeRespChoice (v : Json) : Option OpenAIChoice :=
  match v with
  | Json.obj fs =>
    match jLookup fs "message" with
    | some (Json.obj ms) =>
      match optStrField ms "content" with
      | none => none
      | some cnt =>
        match jLookup ms "tool_calls" with
        | none =>
          some { message := { role := ORole.assistant, content := cnt },
                 finish_reason := jLookup fs "finish_reason" >>= asStr }
        | some Json.null =>
          some { message := { role := ORole.assistant, content := cnt },
                 finish_reason := jLookup fs "finish_reason" >>= asStr }
        | some (Json.arr elems) =>
          match elems.mapM decodeRespToolCall with
          | some calls =>
            some { message := { role := ORole.assistant, content := cnt,
                                tool_calls := some calls },
                   finish_reason := jLookup fs "finish_reason" >>= asStr }
          | none => none
        | some _ => none
    | _ => none
  | _ => none

/-- Decode a non-stream backend document (`as types.OpenAIResponse`).
A falsy or non-array `choices` value fails the source's
`choices && choices.length > 0` guard and is modelled as an absent list. -/
def decodeOpenAIResponse (v : Json) : Option OpenAIResponse :=
  match v with
  | Json.obj fs =>
    let usageField : Option (Option (Nat × Nat)) :=
      match jLookup fs "usage" with
      | none => some none
      | some Json.null => some none
      | some (Json.obj us) =>
        some (some ((jLookup us "prompt_tokens" >>= asNat).getD 0,
                    (jLookup us "completion_tokens" >>= asNat).getD 0))
      | some _ => none
    match usageField with
    | none => none
    | some usage =>
      match jLookup fs "choices" with
      | some (Json.arr (c :: _)) =>
        match decodeRespChoice c with
        | some choice => some { choices := some [choice], usage := usage }
        | none => none
      | some (Json.arr []) => some { choices := some [], usage := usage }
      | _ => some { choices := none, usage := usage }
  | _ => none

/-- Encode one client content block for the response body. -/
def encodeBlock : ClaudeBlock → Json
  | ClaudeBlock.text t =>
    Json.obj [("type", Json.str "text"), ("text", Json.str t)]
  | ClaudeBlock.toolUse id name input =>
    Json.obj [("type", Json.str "tool_use"), ("id", Json.str id),
              ("name", Json.str name), ("input", input)]

/-- The wire spelling of a terminal reason. -/
def stopReasonStr : StopReason → String
  | StopReason.end_turn => "end_turn"
  | StopReason.tool_use => "tool_use"
  | StopReason.max_tokens => "max_tokens"

/-- Encode a client response document (the constant `type` and `role`
fields of `types.ClaudeResponse` are attached here). -/
def encodeClaudeResponse (r : ClaudeResponse) : Json :=
  Json.obj
    ([("id", Json.str r.id), ("type", Json.str "message"),
      ("role", Json.str "assistant"),
      ("content", Json.arr (r.content.map encodeBlock))] ++
     (match r.stop_reason with
      | some sr => [("stop_reason", Json.str (stopReasonStr sr))]
      | none => []) ++
     (match r.usage with
      | some u => [("usage", Json.obj [("input_tokens", Json.num (u.1 : Int)),
                    ("output_tokens", Json.num (u.2 : Int))])]
      | none => []))

/-- The wire JSON of one client SSE event (spec section 6). -/
def eventJson : StreamEvent → Json
  | StreamEvent.messageStart => Json.obj [("type", Json.str "message_start")]
  | StreamEvent.blockStartText i =>
    Json.obj [("type", Json.str "content_block_start"),
              ("index", Json.num (i : Int)),
              ("content_block", Json.obj [("type", Json.str "text"),
                ("text", Json.str "")])]
  | StreamEvent.blockStartTool i id name input =>
    Json.obj [("type", Json.str "content_block_start"),
              ("index", Json.num (i : Int)),
              ("content_block", Json.obj [("type", Json.str "tool_use"),
                ("id", Json.str id), ("name", Json.str name),
                ("input", input)])]
  | StreamEvent.textDelta i t =>
    Json.obj [("type", Json.str "content_block_delta"),
              ("index", Json.num (i : Int)),
              ("delta", Json.obj [("type", Json.str "text_delta"),
                ("text", Json.str t)])]
  | StreamEvent.inputJsonDelta i p =>
    Json.obj [("type", Json.str "content_block_delta"),
              ("index", Json.num (i : Int)),
              ("delta", Json.obj [("type", Json.str "input_json_delta"),
                ("partial_json", Json.str p)])]
  | StreamEvent.blockStop _ i =>
    Json.obj [("type", Json.str "content_block_stop"),
              ("index", Json.num (i : Int))]
  | StreamEvent.messageStop => Json.obj [("type", Json.str "message_stop")]

/-- Modelled from the spec: the client-side SSE framing written by the
missing driver — one `data:` record per event. -/
def renderSse (evs : List StreamEvent) : String :=
  String.join (evs.map fun e => "data: " ++ renderJson (eventJson e) ++ "\n\n")

/-- Modelled from the spec: upstream SSE framing (spec section 4.3):
`data:`-prefixed JSON payload lines, stopping at the `[DONE]` sentinel. -/
def extractRecords : List String → List String
  | [] => []
  | line :: rest =>
    if line.startsWith "data: " then
      let payload := line.drop 6
      if payload == "[DONE]" then [] else payload :: extractRecords rest
    else extractRecords rest

/-- `convertToClaudeResponse` (lines 23-36 of `src/oainew.ts`): a non-2xx
backend response is returned as is; otherwise the content type dispatches to
the stream driver or to the non-stream mapper (which preserves the backend
status, line 184).  `none` models a thrown JavaScript error (unparseable
backend document). -/
def convertToClaudeResponse (r : HttpResponse) : Option HttpResponse :=
  if !respOk r then some r
  else if strIncludes r.contentType "text/event-stream" then
    some { status := 200, contentType := "text/event-stream",
           body := renderSse (processProviderStream
             (extractRecords (r.body.splitOn "\n"))) }
  else
    match parseJson r.body with
    | none => none
    | some doc =>
      match decodeOpenAIResponse doc with
      | none => none
      | some data =>
        (convertNormalResponse data).map fun cr =>
          { status := r.status, contentType := "application/json",
            body := renderJson (encodeClaudeResponse cr) }

/-! ## Observation helpers for the stream event sequence -/

/-- Indices of `content_block_start` events of one kind, in emission
order. -/
def sIdx (t : BlockType) (evs : List StreamEvent) : List Nat :=
  evs.filterMap fun e =>
    match e with
    | StreamEvent.blockStartText i =>
      if t == BlockType.text then some i else none
    | StreamEvent.blockStartTool i _ _ _ =>
      if t == BlockType.toolUse then some i else none
    | _ => none

/-- Indices of `content_block_stop` events of one kind, in emission
order. -/
def eIdx (t : BlockType) (evs : List StreamEvent) : List Nat :=
  evs.filterMap fun e =>
    match e with
    | StreamEvent.blockStop t' i => if t' == t then some i else none
    | _ => none

/-- The `(name, input)` of each emitted tool-use block, in emission order. -/
def toolBlocksOf (evs : List StreamEvent) : List (String × Json) :=
  evs.filterMap fun e =>
    match e with
    | StreamEvent.blockStartTool _ _ name input => some (name, input)
    | _ => none

/-- The client content blocks a well-bracketed event sequence delivers
(start/delta/stop triples, as this decoder emits them). -/
def finalBlocks : List StreamEvent → List ClaudeBlock
  | StreamEvent.blockStartText _ :: StreamEvent.textDelta _ s ::
      StreamEvent.blockStop _ _ :: rest => ClaudeBlock.text s :: finalBlocks rest
  | StreamEvent.blockStartTool _ id name input :: StreamEvent.inputJsonDelta _ _ ::
      StreamEvent.blockStop _ _ :: rest =>
    ClaudeBlock.toolUse id name input :: finalBlocks rest
  | _ :: rest => finalBlocks rest
  | [] => []

/-- A list of consecutive naturals starting at `a` (used to state the
block-index invariants). -/
def consecFrom : Nat → List Nat → Prop
  | _, [] => True
  | a, x :: xs => x = a ∧ consecFrom (a + 1) xs

/-- Indices of all `content_block_start` events of either kind, in emission
order. -/
def startIdxAll (evs : List StreamEvent) : List Nat :=
  evs.filterMap fun e =>
    match e with
    | StreamEvent.blockStartText i => some i
    | StreamEvent.blockStartTool i _ _ _ => some i
    | _ => none

/-! ### Concrete upstream records used by the stream claims -/

/-- Fragment record 1 of the reassembly scenario: slot 0, name only. -/
def c3rec1 : String :=
  "\x7b\"choices\":[\x7b\"delta\":\x7b\"tool_calls\":[\x7b\"index\":0,\"function\":\x7b\"name\":\"f\"\x7d\x7d]\x7d\x7d]\x7d"

/-- Fragment record 2: slot 0, the argument text so far, not yet valid
JSON. -/
def c3rec2 : String :=
  "\x7b\"choices\":[\x7b\"delta\":\x7b\"tool_calls\":[\x7b\"index\":0,\"function\":\x7b\"arguments\":\"\x7b\\\"a\\\":1\"\x7d\x7d]\x7d\x7d]\x7d"

/-- Fragment record 3: slot 0, the closing brace of the arguments. -/
def c3rec3 : String :=
  "\x7b\"choices\":[\x7b\"delta\":\x7b\"tool_calls\":[\x7b\"index\":0,\"function\":\x7b\"arguments\":\"\x7d\"\x7d\x7d]\x7d\x7d]\x7d"

/-- Interleaving record 1: the text fragment "Hello". -/
def c7rec1 : String :=
  "\x7b\"choices\":[\x7b\"delta\":\x7b\"content\":\"Hello\"\x7d\x7d]\x7d"

/-- Interleaving record 2: a complete tool call, name "f", arguments
an empty object. -/
def c7rec2 : String :=
  "\x7b\"choices\":[\x7b\"delta\":\x7b\"tool_calls\":[\x7b\"index\":0,\"function\":\x7b\"name\":\"f\",\"arguments\":\"\x7b\x7d\"\x7d\x7d]\x7d\x7d]\x7d"

/-- Interleaving record 3: the text fragment " world". -/
def c7rec3 : String :=
  "\x7b\"choices\":[\x7b\"delta\":\x7b\"content\":\" world\"\x7d\x7d]\x7d"

/-! ### The spec-side reading of non-stream/stream equivalence (claim C4) -/

/-- The text a fragment sequence carries, concatenated in arrival order. -/
def streamTextOf (cs : List StreamChoice) : String :=
  String.join (cs.map fun c => c.content.getD "")

/-- Definition following the SPEC's words (section 8, "translating the same
logical backend response once as a single JSON document and once as an
equivalent sequence of stream fragments"), for the refinement claim C4,
restricted to tool-call-free responses (all the counterexample needs): the
fragments carry no tool calls, the document declares none, and the fragment
texts concatenate to the document's message content.  Every instance of this
relation is an instance of the spec's equivalence, so refuting the claim
over this relation refutes the claim. -/
def representsSameTextResponse (resp : OpenAIResponse)
    (cs : List StreamChoice) : Prop :=
  (∀ c ∈ cs, c.tool_calls = none) ∧
  match resp.choices with
  | some (choice :: _) =>
    choice.message.tool_calls = none ∧
    streamTextOf cs = choice.message.content.getD ""
  | _ => cs = []

/-- The content-block half of claim C4, formalized: any tool-free logical
response yields the same final content blocks through the non-stream mapper
and through the delta decoder run on an equivalent fragment sequence.  (The
terminal-reason half of the claim cannot be stated against the sources: the
stream side's terminal `message_delta` lives in the missing driver file.) -/
def claimC4Statement : Prop :=
  ∀ resp cs out, representsSameTextResponse resp cs →
    convertNormalResponse resp = some out →
    finalBlocks (runStreamChoices cs) = out.content

/-! ### Concrete backend documents used by the response claims -/

/-- A backend response whose first choice carries a tool call and
`finish_reason: "length"`. -/
def c10resp : OpenAIResponse :=
  { choices := some
      [{ message :=
           { role := ORole.assistant,
             tool_calls := some [{ id := "i", fname := "f",
                                   farguments := "\x7b\x7d" }] },
         finish_reason := some "length" }] }

/-- The client response `c10resp` converts to. -/
def c10out : ClaudeResponse :=
  { id := generateId,
    content := [ClaudeBlock.toolUse "i" "f" (Json.obj [])],
    stop_reason := some StopReason.tool_use }

/-! ## Helper lemmas -/

theorem sIdx_append (t : BlockType) (l1 l2 : List StreamEvent) :
    sIdx t (l1 ++ l2) = sIdx t l1 ++ sIdx t l2 :=
  List.filterMap_append l1 l2 _

theorem eIdx_append (t : BlockType) (l1 l2 : List StreamEvent) :
    eIdx t (l1 ++ l2) = eIdx t l1 ++ eIdx t l2 :=
  List.filterMap_append l1 l2 _

theorem sIdx_text_textPart (s : String) (i : Nat) :
    sIdx BlockType.text (processTextPart s i) = [i] := rfl

theorem eIdx_text_textPart (s : String) (i : Nat) :
    eIdx BlockType.text (processTextPart s i) = [i] := rfl

theorem sIdx_tool_textPart (s : String) (i : Nat) :
    sIdx BlockType.toolUse (processTextPart s i) = [] := rfl

theorem eIdx_tool_textPart (s : String) (i : Nat) :
    eIdx BlockType.toolUse (processTextPart s i) = [] := rfl

theorem sIdx_tool_toolPart (n : String) (v : Json) (j : Nat) :
    sIdx BlockType.toolUse (processToolUsePart n v j) = [j] := rfl

theorem eIdx_tool_toolPart (n : String) (v : Json) (j : Nat) :
    eIdx BlockType.toolUse (processToolUsePart n v j) = [j] := rfl

theorem sIdx_text_toolPart (n : String) (v : Json) (j : Nat) :
    sIdx BlockType.text (processToolUsePart n v j) = [] := rfl

theorem eIdx_text_toolPart (n : String) (v : Json) (j : Nat) :
    eIdx BlockType.text (processToolUsePart n v j) = [] := rfl

theorem processToolFragments_spec (frags : List ToolCallFragment) :
    ∀ acc tj, ∃ k,
      (processToolFragments acc tj frags).2.2 = tj + k ∧
      sIdx BlockType.toolUse (processToolFragments acc tj frags).2.1 =
        List.range' tj k ∧
      eIdx BlockType.toolUse (processToolFragments acc tj frags).2.1 =
        List.range' tj k ∧
      sIdx BlockType.text (processToolFragments acc tj frags).2.1 = [] ∧
      eIdx BlockType.text (processToolFragments acc tj frags).2.1 = [] := by
  induction frags with
  | nil => intro acc tj; exact ⟨0, rfl, rfl, rfl, rfl, rfl⟩
  | cons f fs ih =>
    intro acc tj
    simp only [processToolFragments]
    split
    · rename_i hcomplete
      split
      · rename_i v hparse
        obtain ⟨k, hk1, hk2, hk3, hk4, hk5⟩ :=
          ih (accDelete acc (f.index.getD 0)) (tj + 1)
        refine ⟨k + 1, ?_, ?_, ?_, ?_, ?_⟩
        · simpa [hk1] using by omega
        · rw [sIdx_append, sIdx_tool_toolPart, hk2, List.range'_succ]; rfl
        · rw [eIdx_append, eIdx_tool_toolPart, hk3, List.range'_succ]; rfl
        · rw [sIdx_append, sIdx_text_toolPart, hk4]; rfl
        · rw [eIdx_append, eIdx_text_toolPart, hk5]; rfl
      · exact ih _ tj
    · exact ih _ tj

theorem deltaDecodeChoice_spec (acc : AccMap) (c : StreamChoice) (ti tj : Nat) :
    ∃ a b, a ≤ 1 ∧
      (deltaDecodeChoice acc c ti tj).2.2.1 = ti + a ∧
      (deltaDecodeChoice acc c ti tj).2.2.2 = tj + b ∧
      sIdx BlockType.text (deltaDecodeChoice acc c ti tj).2.1 = List.range' ti a ∧
      eIdx BlockType.text (deltaDecodeChoice acc c ti tj).2.1 = List.range' ti a ∧
      sIdx BlockType.toolUse (deltaDecodeChoice acc c ti tj).2.1 =
        List.range' tj b ∧
      eIdx BlockType.toolUse (deltaDecodeChoice acc c ti tj).2.1 =
        List.range' tj b := by
  obtain ⟨k, hk1, hk2, hk3, hk4, hk5⟩ :=
    processToolFragments_spec (c.tool_calls.getD []) acc tj
  by_cases h : truthy c.content
  · have hd : deltaDecodeChoice acc c ti tj =
        ((processToolFragments acc tj (c.tool_calls.getD [])).1,
         processTextPart (c.content.getD "") ti ++
           (processToolFragments acc tj (c.tool_calls.getD [])).2.1,
         ti + 1, (processToolFragments acc tj (c.tool_calls.getD [])).2.2) := by
      simp [deltaDecodeChoice, h]
    refine ⟨1, k, le_refl 1, ?_, ?_, ?_, ?_, ?_, ?_⟩ <;> rw [hd] <;>
      simp [sIdx_append, eIdx_append, sIdx_text_textPart, eIdx_text_textPart,
        sIdx_tool_textPart, eIdx_tool_textPart, hk1, hk2, hk3, hk4, hk5,
        List.range'_one]
  · have hd : deltaDecodeChoice acc c ti tj =
        ((processToolFragments acc tj (c.tool_calls.getD [])).1,
         [] ++ (processToolFragments acc tj (c.tool_calls.getD [])).2.1,
         ti, (processToolFragments acc tj (c.tool_calls.getD [])).2.2) := by
      simp [deltaDecodeChoice, h]
    refine ⟨0, k, Nat.zero_le 1, ?_, ?_, ?_, ?_, ?_, ?_⟩ <;> rw [hd] <;>
      simp [hk1, hk2, hk3, hk4, hk5]

theorem decodeStep_spec (acc : AccMap) (s : String) (ti tj : Nat)
    (acc' : AccMap) (evs : List StreamEvent) (ti' tj' : Nat)
    (h : decodeStep acc s ti tj = (acc', some (evs, ti', tj'))) :
    ∃ a b, a ≤ 1 ∧ ti' = ti + a ∧ tj' = tj + b ∧
      sIdx BlockType.text evs = List.range' ti a ∧
      eIdx BlockType.text evs = List.range' ti a ∧
      sIdx BlockType.toolUse evs = List.range' tj b ∧
      eIdx BlockType.toolUse evs = List.range' tj b := by
  unfold decodeStep at h
  cases hdr : decodeStreamRecord s with
  | none => rw [hdr] at h; simp at h
  | some c =>
    rw [hdr] at h
    obtain ⟨a, b, hab, h1, h2, h3, h4, h5, h6⟩ := deltaDecodeChoice_spec acc c ti tj
    simp only [Prod.mk.injEq, Option.some.injEq] at h
    obtain ⟨-, hevs, hti, htj⟩ := h
    exact ⟨a, b, hab, hti ▸ h1, htj ▸ h2, hevs ▸ h3, hevs ▸ h4,
      hevs ▸ h5, hevs ▸ h6⟩

theorem runRecords_spec (records : List String) :
    ∀ acc ti tj, ∃ a b,
      (runRecords acc ti tj records).2.2.1 = ti + a ∧
      (runRecords acc ti tj records).2.2.2 = tj + b ∧
      sIdx BlockType.text (runRecords acc ti tj records).1 =
        List.range' ti a ∧
      eIdx BlockType.text (runRecords acc ti tj records).1 =
        List.range' ti a ∧
      sIdx BlockType.toolUse (runRecords acc ti tj records).1 =
        List.range' tj b ∧
      eIdx BlockType.toolUse (runRecords acc ti tj records).1 =
        List.range' tj b := by
  induction records with
  | nil => intro acc ti tj; exact ⟨0, 0, rfl, rfl, rfl, rfl, rfl, rfl⟩
  | cons s rest ih =>
    intro acc ti tj
    cases hds : decodeStep acc s ti tj with
    | mk acc' ores =>
      cases ores with
      | none =>
        obtain ⟨a, b, ha1, ha2, ha3, ha4, ha5, ha6⟩ := ih acc' ti tj
        exact ⟨a, b, by simp only [runRecords, hds]; exact ha1,
          by simp only [runRecords, hds]; exact ha2,
          by simp only [runRecords, hds]; exact ha3,
          by simp only [runRecords, hds]; exact ha4,
          by simp only [runRecords, hds]; exact ha5,
          by simp only [runRecords, hds]; exact ha6⟩
      | some tpl =>
        obtain ⟨evs, ti', tj'⟩ := tpl
        obtain ⟨a1, b1, hab1, hti, htj, hs1, he1, hs2, he2⟩ :=
          decodeStep_spec acc s ti tj acc' evs ti' tj' hds
        obtain ⟨a2, b2, ha1, ha2, ha3, ha4, ha5, ha6⟩ := ih acc' ti' tj'
        refine ⟨a1 + a2, b1 + b2, ?_, ?_, ?_, ?_, ?_, ?_⟩ <;>
          simp only [runRecords, hds, sIdx_append, eIdx_append]
        · rw [ha1, hti]; omega
        · rw [ha2, htj]; omega
        · rw [ha3, hs1, hti, List.range'_append_1, Nat.add_comm a2 a1]
        · rw [ha4, he1, hti, List.range'_append_1, Nat.add_comm a2 a1]
        · rw [ha5, hs2, htj, List.range'_append_1, Nat.add_comm b2 b1]
        · rw [ha6, he2, htj, List.range'_append_1, Nat.add_comm b2 b1]

theorem cursorTrace_chain (records : List String) :
    ∀ acc ti tj,
      List.Chain' (fun p q : Nat × Nat => p.1 ≤ q.1 ∧ p.2 ≤ q.2)
        ((ti, tj) :: cursorTrace acc ti tj records) := by
  induction records with
  | nil => intro acc ti tj; simp [cursorTrace]
  | cons s rest ih =>
    intro acc ti tj
    cases hds : decodeStep acc s ti tj with
    | mk acc' ores =>
      cases ores with
      | none =>
        simp only [cursorTrace, hds]
        exact List.Chain'.cons ⟨le_refl ti, le_refl tj⟩ (ih acc' ti tj)
      | some tpl =>
        obtain ⟨evs, ti', tj'⟩ := tpl
        obtain ⟨a, b, -, hti, htj, -, -, -, -⟩ :=
          decodeStep_spec acc s ti tj acc' evs ti' tj' hds
        simp only [cursorTrace, hds]
        exact List.Chain'.cons ⟨by omega, by omega⟩ (ih acc' ti' tj')

theorem sIdx_envelope (t : BlockType) (l : List StreamEvent) :
    sIdx t (StreamEvent.messageStart :: l ++ [StreamEvent.messageStop]) =
      sIdx t l := by
  simp only [sIdx, List.filterMap_cons, List.filterMap_append]
  cases t <;> simp [List.filterMap]

theorem eIdx_envelope (t : BlockType) (l : List StreamEvent) :
    eIdx t (StreamEvent.messageStart :: l ++ [StreamEvent.messageStop]) =
      eIdx t l := by
  simp only [eIdx, List.filterMap_cons, List.filterMap_append]
  cases t <;> simp [List.filterMap]

/-- C6: for every streamed response, each emitted block index appears in
exactly one `content_block_start`/`content_block_stop` pair and, per counter
(text, tool-use), the start indices are strictly increasing in emission
order (they are exactly the consecutive range the counter traversed, so the
stop indices pair them one to one); and the cursor values returned by the
decode callback never decrease across the records of one response. -/
theorem c6_stream_block_invariants (records : List String) :
    (∃ a, sIdx BlockType.text (processProviderStream records) =
        List.range' 0 a ∧
      eIdx BlockType.text (processProviderStream records) =
        List.range' 0 a) ∧
    (sIdx BlockType.text (processProviderStream records)).Pairwise (· < ·) ∧
    (∃ b, sIdx BlockType.toolUse (processProviderStream records) =
        List.range' 0 b ∧
      eIdx BlockType.toolUse (processProviderStream records) =
        List.range' 0 b) ∧
    (sIdx BlockType.toolUse (processProviderStream records)).Pairwise
      (· < ·) ∧
    List.Chain' (fun p q : Nat × Nat => p.1 ≤ q.1 ∧ p.2 ≤ q.2)
      ((0, 0) :: cursorTrace [] 0 0 records) := by
  obtain ⟨a, b, -, -, h3, h4, h5, h6⟩ := runRecords_spec records [] 0 0
  have hse : ∀ t, sIdx t (processProviderStream records) =
      sIdx t (runRecords [] 0 0 records).1 := fun t =>
    sIdx_envelope t (runRecords [] 0 0 records).1
  have hee : ∀ t, eIdx t (processProviderStream records) =
      eIdx t (runRecords [] 0 0 records).1 := fun t =>
    eIdx_envelope t (runRecords [] 0 0 records).1
  refine ⟨⟨a, ?_, ?_⟩, ?_, ⟨b, ?_, ?_⟩, ?_, cursorTrace_chain records [] 0 0⟩
  · rw [hse, h3]
  · rw [hee, h4]
  · rw [hse, h3]; exact List.pairwise_lt_range' 0 a
  · rw [hse, h5]
  · rw [hee, h6]
  · rw [hse, h5]; exact List.pairwise_lt_range' 0 b

theorem mapRole_ne_system (r : String) : mapRole r ≠ ORole.system := by
  unfold mapRole; split <;> simp

theorem mapRole_ne_tool (r : String) : mapRole r ≠ ORole.tool := by
  unfold mapRole; split <;> simp

theorem notSystem_match (r : String) :
    (match mapRole r with
     | ORole.system => false
     | _ => true) = true := by
  have := mapRole_ne_system r
  cases hm : mapRole r <;> simp_all

theorem convertOneMessage_no_system (m : ClaudeMessage) :
    ((convertOneMessage m).all fun x =>
      match x.role with
      | ORole.system => false
      | _ => true) = true := by
  unfold convertOneMessage
  cases m.content with
  | str s =>
    simp only [List.all_cons, List.all_nil, Bool.and_true]
    exact notSystem_match m.role
  | blocks bl =>
    rw [List.all_append]
    have h1 : ((ownMessagesOf m bl).all fun x =>
        match x.role with
        | ORole.system => false
        | _ => true) = true := by
      simp only [ownMessagesOf]
      split
      · simp only [List.all_cons, List.all_nil, Bool.and_true]
        exact notSystem_match m.role
      · rfl
    have h2 : ((toolMessagesOf bl).all fun x =>
        match x.role with
        | ORole.system => false
        | _ => true) = true := by
      refine List.all_eq_true.mpr fun x hx => ?_
      obtain ⟨tr, -, rfl⟩ := List.mem_map.mp hx
      rfl
    rw [h1, h2]
    rfl

theorem convertMessages_no_system (msgs : List ClaudeMessage) :
    ((convertMessages msgs).all fun x =>
      match x.role with
      | ORole.system => false
      | _ => true) = true := by
  induction msgs with
  | nil => rfl
  | cons m rest ih =>
    show ((convertOneMessage m ++ convertMessages rest).all _) = true
    rw [List.all_append, convertOneMessage_no_system m, ih]
    rfl

theorem convertBody_messages (req : ClaudeRequest) :
    (convertToOpenAIRequestBody req).messages = convertMessages req.messages := by
  unfold convertToOpenAIRequestBody
  cases req.tools with
  | none => cases req.temperature <;> cases req.max_tokens <;> rfl
  | some ts =>
    by_cases h : ts.length > 0 <;> cases req.temperature <;>
      cases req.max_tokens <;> simp [h]

/-- C1 (counterexample): a request whose top-level system field is the
string "A" is mapped to a backend message list with no system-role message
at all — nothing is prepended. -/
theorem c1_system_prepend_refuted :
    ({ model := "m", system := some "A",
       messages := [{ role := "user", content := ClaudeContent.str "hi" }] } :
        ClaudeRequest).system = some "A" ∧
    (convertToOpenAIRequestBody
      { model := "m", system := some "A",
        messages := [{ role := "user", content := ClaudeContent.str "hi" }] }).messages =
      [{ role := ORole.user, content := some "hi" }] :=
  ⟨rfl, rfl⟩

/-- C1 (amended): the request mapper ignores the top-level system field
entirely — the backend request is the same whatever the system field holds,
its message list is exactly the converted client messages, and that list
never contains a system-role message. -/
theorem c1_system_field_ignored (req : ClaudeRequest)
    (sys1 sys2 : Option String) :
    convertToOpenAIRequestBody { req with system := sys1 } =
      convertToOpenAIRequestBody { req with system := sys2 } ∧
    (convertToOpenAIRequestBody req).messages = convertMessages req.messages ∧
    ((convertToOpenAIRequestBody req).messages.all fun x =>
      match x.role with
      | ORole.system => false
      | _ => true) = true := by
  refine ⟨rfl, convertBody_messages req, ?_⟩
  rw [convertBody_messages req]
  exact convertMessages_no_system req.messages

/-- C2 (counterexample): a turn holding both a tool-result block and a text
block is mapped with its consolidated content message FIRST and the
tool-role message AFTER it, not the other way round. -/
theorem c2_tool_result_order_refuted :
    convertMessages [{ role := "user", content := ClaudeContent.blocks
                         [ClaudeContentBlock.toolResult "id1" (ToolResultContent.str "r") none,
                          ClaudeContentBlock.text "t"] }] =
      [{ role := ORole.user, content := some "t" },
       { role := ORole.tool, content := some "r", tool_call_id := some "id1" }] ∧
    ((convertMessages [{ role := "user", content := ClaudeContent.blocks
                           [ClaudeContentBlock.toolResult "id1" (ToolResultContent.str "r") none,
                            ClaudeContentBlock.text "t"] }]).map fun x => x.role) ≠
      [ORole.tool, ORole.user] :=
  ⟨rfl, by decide⟩

/-- C2 (amended): for every client message given as a block array, the
backend messages of that turn are its consolidated own-content message
followed by the tool-role messages built from its tool-result blocks — the
tool-result messages are emitted AFTER the turn's own content message. -/
theorem c2_tool_results_after_content (role : String)
    (bl : List ClaudeContentBlock) :
    convertOneMessage { role := role, content := ClaudeContent.blocks bl } =
      ownMessagesOf { role := role, content := ClaudeContent.blocks bl } bl ++
        toolMessagesOf bl ∧
    ((toolMessagesOf bl).all fun x => x.role == ORole.tool) = true ∧
    ((ownMessagesOf { role := role, content := ClaudeContent.blocks bl }
        bl).all fun x => x.role != ORole.tool) = true := by
  refine ⟨rfl, ?_, ?_⟩
  · refine List.all_eq_true.mpr fun x hx => ?_
    obtain ⟨tr, -, rfl⟩ := List.mem_map.mp hx
    rfl
  · simp only [ownMessagesOf]
    split
    · simp only [List.all_cons, List.all_nil, Bool.and_true]
      have := mapRole_ne_tool role
      cases h : mapRole role <;> simp_all
    · rfl

/-- C8 (counterexample): the role comparison is exact and case-sensitive,
with only "assistant" special: role "Assistant" folds to user (so the
mapping is not the case-insensitive normalization the claim states), and
role "tool" also folds to user (so roles are not normalized onto
\x7buser, assistant, system, tool\x7d). -/
theorem c8_role_normalization_refuted :
    convertMessages [{ role := "Assistant", content := ClaudeContent.str "x" }] =
      [{ role := ORole.user, content := some "x" }] ∧
    ((convertMessages [{ role := "Assistant", content := ClaudeContent.str "x" }]).map
        fun x => x.role) ≠
      [ORole.assistant] ∧
    convertMessages [{ role := "tool", content := ClaudeContent.str "x" }] =
      [{ role := ORole.user, content := some "x" }] ∧
    ((convertMessages [{ role := "tool", content := ClaudeContent.str "x" }]).map
        fun x => x.role) ≠
      [ORole.tool] :=
  ⟨rfl, by decide, rfl, by decide⟩

/-- C8 (amended): the mapper compares the role with the exact string
"assistant"; every other value — "system", "tool", "tools", "narrator",
"Assistant", anything — folds to user.  In particular "tools" is treated
identically to "tool" (both fold to user) and "narrator" maps as user. -/
theorem c8_role_mapping (role s : String) :
    convertMessages [{ role := role, content := ClaudeContent.str s }] =
      [{ role := if role = "assistant" then ORole.assistant else ORole.user,
         content := some s }] ∧
    convertMessages [{ role := "tools", content := ClaudeContent.str s }] =
      convertMessages [{ role := "tool", content := ClaudeContent.str s }] ∧
    convertMessages [{ role := "narrator", content := ClaudeContent.str s }] =
      [{ role := ORole.user, content := some s }] :=
  ⟨rfl, rfl, rfl⟩

theorem accLookup_accDelete (m : AccMap) (k : Nat) :
    accLookup (accDelete m k) k = none := by
  unfold accLookup accDelete
  have h : List.find? (fun p => p.1 == k) (List.filter (fun p => p.1 != k) m) =
      none := by
    rw [List.find?_eq_none]
    intro x hx
    have := (List.mem_filter.mp hx).2
    simpa using this
  rw [h]
  rfl

/-- C3: fragments for one slot arriving as name, then a partial arguments
string, then its completion emit nothing until the final fragment (parse
failure of the accumulated buffer is silent) and then exactly one tool-use
block with the parsed input; the slot's entry keeps the overwritten name,
its arguments buffer grows by appending only, and the entry is deleted once
its buffer parses and the block has been emitted. -/
theorem c3_tool_call_reassembly :
    (runRecords [] 0 0 [c3rec1, c3rec2]).1 = [] ∧
    (runRecords [] 0 0 [c3rec1]).2.1 = [(0, { name := some "f" })] ∧
    (runRecords [] 0 0 [c3rec1, c3rec2]).2.1 =
      [(0, { name := some "f", args := some "\x7b\"a\":1" })] ∧
    toolBlocksOf (runRecords [] 0 0 [c3rec1, c3rec2, c3rec3]).1 =
      [("f", Json.obj [("a", Json.num 1)])] ∧
    sIdx BlockType.toolUse (runRecords [] 0 0 [c3rec1, c3rec2, c3rec3]).1 =
      [0] ∧
    (runRecords [] 0 0 [c3rec1, c3rec2, c3rec3]).2.1 = [] ∧
    (∀ (e : AccEntry) (f : ToolCallFragment),
      (truthy f.fargs = true →
        (mergeFragment e f).args =
          some ((e.args.getD "") ++ f.fargs.getD "")) ∧
      (truthy f.fargs = false → (mergeFragment e f).args = e.args) ∧
      (truthy f.id = true → (mergeFragment e f).id = f.id) ∧
      (truthy f.id = false → (mergeFragment e f).id = e.id) ∧
      (truthy f.fname = true → (mergeFragment e f).name = f.fname) ∧
      (truthy f.fname = false → (mergeFragment e f).name = e.name)) ∧
    (∀ (m : AccMap) (k : Nat), accLookup (accDelete m k) k = none) := by
  refine ⟨rfl, rfl, rfl, rfl, rfl, rfl, ?_, accLookup_accDelete⟩
  intro e f
  refine ⟨?_, ?_, ?_, ?_, ?_, ?_⟩ <;> intro h <;>
    cases hid : truthy f.id <;> cases hnm : truthy f.fname <;>
    cases hag : truthy f.fargs <;>
    simp_all [mergeFragment]

/-- C3 (witness): one concrete merge step appends to the arguments
buffer. -/
theorem c3_reassembly_witness :
    truthy (ToolCallFragment.fargs { fargs := some "cd" }) = true ∧
    (mergeFragment { args := some "ab" } { fargs := some "cd" }).args =
      some "abcd" := by
  refine ⟨rfl, ?_⟩
  have h := (c3_tool_call_reassembly.2.2.2.2.2.2.1
    { args := some "ab" } { fargs := some "cd" }).1 rfl
  rw [h]
  rfl

/-- C7 (counterexample): the three-record interleaving text("Hello"),
tool(name "f", arguments an empty object), text(" world") does NOT carry
indices 0, 1 and 2: the decoder numbers text and tool-use blocks with two
independent counters, so the emitted start indices are 0, 0 and 1. -/
theorem c7_shared_indices_refuted :
    startIdxAll (runRecords [] 0 0 [c7rec1, c7rec2, c7rec3]).1 = [0, 0, 1] ∧
    startIdxAll (runRecords [] 0 0 [c7rec1, c7rec2, c7rec3]).1 ≠ [0, 1, 2] := by
  have h : startIdxAll (runRecords [] 0 0 [c7rec1, c7rec2, c7rec3]).1 =
      [0, 0, 1] := rfl
  exact ⟨h, by rw [h]; decide⟩

/-- C7 (amended): the three records produce exactly three blocks in order —
text "Hello", the tool use, text " world" — with no events skipped; the
per-counter indices are 0 and 1 for the two text blocks and 0 for the
tool-use block. -/
theorem c7_text_tool_interleaving :
    (runRecords [] 0 0 [c7rec1, c7rec2, c7rec3]).1 =
      processTextPart "Hello" 0 ++ processToolUsePart "f" (Json.obj []) 0 ++
        processTextPart " world" 1 ∧
    finalBlocks (runRecords [] 0 0 [c7rec1, c7rec2, c7rec3]).1 =
      [ClaudeBlock.text "Hello",
       ClaudeBlock.toolUse generateId "f" (Json.obj []),
       ClaudeBlock.text " world"] ∧
    sIdx BlockType.text (runRecords [] 0 0 [c7rec1, c7rec2, c7rec3]).1 =
      [0, 1] ∧
    sIdx BlockType.toolUse (runRecords [] 0 0 [c7rec1, c7rec2, c7rec3]).1 =
      [0] :=
  ⟨rfl, rfl, rfl, rfl⟩

/-- C5: a backend response with a non-2xx status is returned unmodified —
status, content type and body all preserved, and no client-format error body
is synthesized. -/
theorem c5_backend_error_passthrough (r : HttpResponse)
    (h : r.status < 200 ∨ 300 ≤ r.status) :
    convertToClaudeResponse r = some r := by
  have hok : respOk r = false := by
    unfold respOk
    rcases h with h | h <;> simp <;> omega
  simp [convertToClaudeResponse, hok]

/-- C5 (witness): a backend 429 with body (as a JSON text)
error: rate limited reaches the client with status 429 and the identical
body. -/
theorem c5_passthrough_witness :
    convertToClaudeResponse
        { status := 429, contentType := "application/json",
          body := "\x7b\"error\":\"rate limited\"\x7d" } =
      some { status := 429, contentType := "application/json",
             body := "\x7b\"error\":\"rate limited\"\x7d" } :=
  c5_backend_error_passthrough _ (Or.inr (by decide))

theorem oai_tools_toolchoice (req : ClaudeRequest) :
    ((convertToOpenAIRequestBody req).tools,
     (convertToOpenAIRequestBody req).tool_choice) =
      (match req.tools with
       | some ts =>
         if ts.length > 0 then (some (ts.map mkOpenAITool), some "auto")
         else (none, none)
       | none => (none, none)) := by
  unfold convertToOpenAIRequestBody
  cases req.tools with
  | none => cases req.temperature <;> cases req.max_tokens <;> rfl
  | some ts =>
    by_cases h : ts.length > 0 <;> cases req.temperature <;>
      cases req.max_tokens <;> simp [h]

theorem resp_tools_toolchoice (req : ClaudeRequest) :
    ((convertToResponsesRequestBody req).tools,
     (convertToResponsesRequestBody req).tool_choice) =
      (match req.tools with
       | some ts =>
         if ts.length > 0 then (some (ts.map mkOpenAITool), some "auto")
         else (none, none)
       | none => (none, none)) := by
  unfold convertToResponsesRequestBody
  by_cases h1 : (strIncludes req.model "o1" || strIncludes req.model "o3" ||
    strIncludes req.model "gpt-5") = true <;>
  by_cases h2 : req.stream.getD false = true <;>
  cases req.tools with
  | none => cases req.temperature <;> cases req.max_tokens <;> simp [h1, h2]
  | some ts =>
    by_cases h : ts.length > 0 <;> cases req.temperature <;>
      cases req.max_tokens <;> simp [h1, h2, h]

/-- C9: a request with an absent or empty tools list produces a backend
request with no tools field and no tool_choice field, in both dialects;
tool_choice is "auto" exactly when at least one tool is declared; and each
declared tool maps to one backend function tool with the same name and
description and strict set to true. -/
theorem c9_tools_mapping (req : ClaudeRequest) :
    ((req.tools = none ∨ req.tools = some []) →
      (convertToOpenAIRequestBody req).tools = none ∧
      (convertToOpenAIRequestBody req).tool_choice = none ∧
      (convertToResponsesRequestBody req).tools = none ∧
      (convertToResponsesRequestBody req).tool_choice = none) ∧
    (∀ t ts, req.tools = some (t :: ts) →
      (convertToOpenAIRequestBody req).tool_choice = some "auto" ∧
      (convertToOpenAIRequestBody req).tools =
        some ((t :: ts).map mkOpenAITool) ∧
      (convertToResponsesRequestBody req).tool_choice = some "auto" ∧
      (convertToResponsesRequestBody req).tools =
        some ((t :: ts).map mkOpenAITool)) ∧
    (∀ t : ClaudeTool,
      (mkOpenAITool t).function.name = t.name ∧
      (mkOpenAITool t).function.description = t.description ∧
      (mkOpenAITool t).function.strict = true ∧
      (mkOpenAITool t).tp = "function") := by
  refine ⟨?_, ?_, fun t => ⟨rfl, rfl, rfl, rfl⟩⟩
  · intro h
    have h1 := oai_tools_toolchoice req
    have h2 := resp_tools_toolchoice req
    rcases h with h | h <;> rw [h] at h1 h2 <;> simp at h1 h2 <;>
      exact ⟨h1.1, h1.2, h2.1, h2.2⟩
  · intro t ts h
    have h1 := oai_tools_toolchoice req
    have h2 := resp_tools_toolchoice req
    rw [h] at h1 h2
    simp at h1 h2
    exact ⟨h1.2, h1.1, h2.2, h2.1⟩

/-- C9 (witness): one declared tool turns tool_choice on; a request without
tools leaves both fields absent. -/
theorem c9_tools_mapping_witness :
    (convertToOpenAIRequestBody
      { model := "m", messages := [],
        tools := some [{ name := "t1", description := "d1",
                         input_schema := JsonSchema.mk none [] none none none }] }).tool_choice =
      some "auto" ∧
    (convertToOpenAIRequestBody
      { model := "m", messages := [] }).tool_choice = none :=
  ⟨((c9_tools_mapping _).2.1
      { name := "t1", description := "d1",
        input_schema := JsonSchema.mk none [] none none none } [] rfl).1,
   ((c9_tools_mapping { model := "m", messages := [] }).1 (Or.inl rfl)).2.1⟩

/-- C10: in the non-stream mapper, a present tool_calls list forces
stop_reason tool_use whatever finish_reason says (finish_reason never enters
that branch); finish_reason "length" maps to max_tokens exactly when
tool_calls is absent, any other finish_reason to end_turn; and with absent
or empty choices the client response has empty content and no stop_reason
at all. -/
theorem c10_stop_reason_mapping (resp : OpenAIResponse) :
    (∀ choice rest calls tb,
      resp.choices = some (choice :: rest) →
      choice.message.tool_calls = some calls →
      parseToolCalls calls = some tb →
      convertNormalResponse resp = some
        { id := generateId,
          content := (if truthy choice.message.content
            then [ClaudeBlock.text (choice.message.content.getD "")]
            else []) ++ tb,
          stop_reason := some StopReason.tool_use,
          usage := resp.usage }) ∧
    (∀ choice rest,
      resp.choices = some (choice :: rest) →
      choice.message.tool_calls = none →
      convertNormalResponse resp = some
        { id := generateId,
          content := if truthy choice.message.content
            then [ClaudeBlock.text (choice.message.content.getD "")]
            else [],
          stop_reason := some (if choice.finish_reason == some "length"
            then StopReason.max_tokens else StopReason.end_turn),
          usage := resp.usage }) ∧
    ((resp.choices = none ∨ resp.choices = some []) →
      convertNormalResponse resp = some
        { id := generateId, content := [], stop_reason := none,
          usage := resp.usage }) := by
  refine ⟨?_, ?_, ?_⟩
  · intro choice rest calls tb hch hcalls hp
    unfold convertNormalResponse
    rw [hch]
    dsimp only
    rw [hcalls]
    dsimp only
    rw [hp]
    cases hu : resp.usage <;> simp [hu]
  · intro choice rest hch hcalls
    unfold convertNormalResponse
    rw [hch]
    dsimp only
    rw [hcalls]
    cases hu : resp.usage <;> simp [hu]
  · intro h
    unfold convertNormalResponse
    rcases h with h | h <;> rw [h] <;> cases hu : resp.usage <;> simp [hu]

/-- C10 (witness): a response whose first choice has one tool call and
finish_reason "length" still converts with stop_reason tool_use. -/
theorem c10_stop_reason_witness :
    convertNormalResponse c10resp = some c10out ∧
    c10out.stop_reason = some StopReason.tool_use := by
  refine ⟨?_, rfl⟩
  exact (c10_stop_reason_mapping c10resp).1
    { message := { role := ORole.assistant,
                   tool_calls := some [{ id := "i", fname := "f",
                                         farguments := "\x7b\x7d" }] },
      finish_reason := some "length" }
    [] [{ id := "i", fname := "f", farguments := "\x7b\x7d" }]
    [ClaudeBlock.toolUse "i" "f" (Json.obj [])] rfl rfl rfl

/-- C4 (counterexample): the same logical text-only response — message
content "Hello" — translated once as a single document and once as the
equivalent fragment sequence "Hel", "lo" yields different final content
blocks: the non-stream mapper emits one text block "Hello", the delta
decoder opens a new text block per fragment and emits two blocks. -/
theorem c4_stream_nonstream_refuted : ¬ claimC4Statement := by
  intro h
  have heq := h
    { choices := some [{ message := { role := ORole.assistant,
                                      content := some "Hello" } }] }
    [{ content := some "Hel" }, { content := some "lo" }]
    { id := generateId, content := [ClaudeBlock.text "Hello"],
      stop_reason := some StopReason.end_turn }
    ⟨by decide, rfl, rfl⟩ rfl
  have hl : finalBlocks (runStreamChoices
      [{ content := some "Hel" }, { content := some "lo" }]) =
      [ClaudeBlock.text "Hel", ClaudeBlock.text "lo"] := rfl
  rw [hl] at heq
  have hlen := congrArg List.length heq
  simp at hlen

/-- C4 (amended): for a backend response whose only content is one text
string delivered as a single stream fragment, the non-stream mapper and the
delta decoder produce the same final content blocks; the universal claim
fails because the decoder opens one block per text fragment (and stream
tool-use blocks carry a generated id rather than the backend id), so a
fragmented delivery of the same logical response yields different blocks. -/
theorem c4_single_fragment_consistency (s : String) :
    ∃ out,
      convertNormalResponse
        { choices := some [{ message := { role := ORole.assistant,
                                          content := some s } }] } =
        some out ∧
      finalBlocks (runStreamChoices [{ content := some s }]) = out.content := by
  refine ⟨{ id := generateId,
            content := if truthy (some s) then [ClaudeBlock.text s] else [],
            stop_reason := some StopReason.end_turn }, ?_, ?_⟩
  · unfold convertNormalResponse
    dsimp only
    by_cases h : truthy (some s) <;> simp [h]
  · unfold runStreamChoices runChoices deltaDecodeChoice processToolFragments
    by_cases h : truthy (some s) <;> simp [h, processTextPart, finalBlocks]
